import Mathlib

/-!
Verification of the polling-aggregation-broadcast core of a real-time
earthquake-intensity monitor (tools/subscribe-data.js).

JavaScript numbers are embedded as rationals (ℚ); possibly-missing object
fields are embedded as `Option`; heterogeneous JS values (a field that may
hold a string, a number, or `undefined`) are embedded as `JSVal`; JS objects
used as keyed maps are embedded as association lists; a thrown exception is
embedded as `Except.error` (carrying the store at the time of the throw,
since the JS store is a mutable global that keeps its partial mutations).
-/

/-- Heterogeneous JavaScript value: a string, a number, or `undefined`. -/
inductive JSVal where
  | str (s : String)
  | num (q : ℚ)
  | undef
deriving DecidableEq

/-- Coerce a possibly-missing JS number into a `JSVal`. -/
def jsvalOfNum : Option ℚ → JSVal
  | some q => JSVal.num q
  | none => JSVal.undef

/-- One monitored area from `CONFIG.targetAreas`: `{ code, name }`. -/
structure TargetArea where
  code : ℤ
  name : String
deriving DecidableEq

/-- `CONFIG.targetAreas` from the source. -/
def CONFIG_targetAreas : List TargetArea :=
  [⟨106, "臺北市大安區"⟩, ⟨402, "臺中市南區"⟩, ⟨710, "臺南市永康區"⟩, ⟨301, "新竹市東區"⟩]

/-- `CONFIG.interval` (milliseconds). -/
def CONFIG_interval : ℕ := 1000

/-- `STATION_INFO_INTERVAL`: station-metadata TTL, 5 minutes in milliseconds. -/
def STATION_INFO_INTERVAL : ℕ := 5 * 60 * 1000

/-- `INTENSITY_LIST` from the source: the exact strings, including the
superscript minus and plus glyphs. -/
def INTENSITY_LIST : List String :=
  ["0", "1", "2", "3", "4", "5⁻", "5⁺", "6⁻", "6⁺", "7"]

/-- JavaScript `Math.round`: round half towards positive infinity. -/
def jsRound (q : ℚ) : ℤ := ⌊q + 1/2⌋

/-- `IntensityCalculator.intensityFloatToInt`: the fixed threshold table
converting a float intensity to the integer scale 0–9. -/
def intensityFloatToInt (floatValue : ℚ) : ℤ :=
  if floatValue < 0 then 0
  else if floatValue < 4.5 then jsRound floatValue
  else if floatValue < 5 then 5
  else if floatValue < 5.5 then 6
  else if floatValue < 6 then 7
  else if floatValue < 6.5 then 8
  else 9

/-- `IntensityCalculator.intensityToText`: index into `INTENSITY_LIST` when
`0 <= level < INTENSITY_LIST.length`, else the sentinel `不明`. -/
def intensityToText (level : ℤ) : String :=
  if 0 ≤ level ∧ level < INTENSITY_LIST.length then
    INTENSITY_LIST.getD level.toNat "不明"
  else "不明"

/-- One entry of a station's `info` history: `{ code, lat, lon }`. -/
structure StationInfoEntry where
  code : ℤ
  lat : ℚ
  lon : ℚ
deriving DecidableEq

/-- A station record from the metadata service; `info` is the area-assignment
history (missing and empty `info` behave identically in the source: both are
skipped, so both are embedded as `[]`). -/
structure StationRecord where
  info : List StationInfoEntry
deriving DecidableEq

/-- The station directory returned by the metadata service, keyed by station id. -/
abbrev StationMap := List (String × StationRecord)

/-- One station's reading in the RTS payload: fields `pga`, `i` (float
intensity) and `I` (integer intensity), each possibly missing. -/
structure StationData where
  pga : Option ℚ
  i : Option ℚ
  I : Option ℚ
deriving DecidableEq

/-- The raw RTS payload: `{ time, station }` with `station` a keyed map. -/
structure RtsData where
  time : Option ℕ
  station : Option (List (String × StationData))
deriving DecidableEq

/-- One `areaStatus[code]` record. `intensity` is `Option` because the update
path stores `stationData.I`, which may be `undefined`; `intensityText` is a
`JSVal` because initialization stores the string `"0"` while the update path
stores the number `stationData.i`. -/
structure AreaStatusRec where
  name : String
  pga : ℚ
  intensity : Option ℚ
  intensityText : JSVal
  lastUpdate : Option ℕ
deriving DecidableEq

/-- The `areaStatus` global object, keyed by area code. -/
abbrev Store := List (ℤ × AreaStatusRec)

/-- The initialization loop over `CONFIG.targetAreas`: one record per
monitored area with `pga: 0, intensity: 0, intensityText: '0',
lastUpdate: null`. -/
def initStore : Store :=
  CONFIG_targetAreas.map fun a =>
    (a.code, { name := a.name, pga := 0, intensity := some 0,
               intensityText := JSVal.str "0", lastUpdate := none })

/-- JS property assignment `areaStatus[c] = r`: replace in place when the key
exists, append otherwise. -/
def storeSet (s : Store) (c : ℤ) (r : AreaStatusRec) : Store :=
  if (List.lookup c s).isSome then
    s.map fun p => if p.1 == c then (c, r) else p
  else s ++ [(c, r)]

/-- One element of `result.updatedAreas` as built by `processTargetAreaData`. -/
structure UpdatedArea where
  code : ℤ
  name : String
  pga : ℚ
  intensityFloat : String
  intensity : Option ℚ
  intensityText : JSVal
  stationId : String
  lat : ℚ
  lon : ℚ
deriving DecidableEq

/-- The non-null result of `processTargetAreaData`: `{ time, updatedAreas }`. -/
structure ProcResult where
  time : ℕ
  updatedAreas : List UpdatedArea
deriving DecidableEq

/-- The station-metadata cache globals: `stationInfo` and
`lastStationInfoFetch`. -/
structure CacheState where
  stationInfo : Option StationMap
  lastStationInfoFetch : ℕ
deriving DecidableEq

/-- `getStationInfo`. The network interaction is abstracted into
`fetchResult`: `some m` when the fetch succeeded with an OK response whose
body parsed to `m`, `none` when the fetch failed or the response was non-OK.
Returns the value the call returns together with the updated cache globals. -/
def getStationInfo (st : CacheState) (now : ℕ) (fetchResult : Option StationMap) :
    Option StationMap × CacheState :=
  if st.stationInfo.isSome ∧ now - st.lastStationInfoFetch < STATION_INFO_INTERVAL then
    (st.stationInfo, st)
  else
    match fetchResult with
    | some m => (some m, { stationInfo := some m, lastStationInfoFetch := now })
    | none => (none, st)

/-- JavaScript `Number.prototype.toFixed(2)` on a rational: round to two
decimal places, half away from zero, and print with exactly two decimals. -/
def jsToFixed2 (q : ℚ) : String :=
  let sign := if q < 0 then "-" else ""
  let n : ℤ := ⌊|q| * 100 + 1/2⌋
  let r : ℤ := n % 100
  sign ++ toString (n / 100) ++ "." ++ (if r < 10 then "0" else "") ++ toString r

/-- The body of the `for … of Object.entries(data.station)` loop of
`processTargetAreaData`, for a single `(stationId, stationData)` entry.

Mirrors the source exactly: skip when the station is absent from the
metadata or its `info` history is empty; take the last `info` entry as the
current area; skip when the area is not monitored; default a missing `pga`
to `0`; treat the entry as changed when stored `pga` or stored `intensity`
differs, or when `lastUpdate` is null; on change, overwrite
`areaStatus[areaCode]` (with `intensityText := stationData.i` and
`lastUpdate := now`) and then build the `updatedAreas` element — whose
`intensityFloat.toFixed(2)` throws a TypeError when `stationData.i` is
missing, after the store write has already happened. Reading
`areaStatus[areaCode]` of an absent key also throws. An `Except.error`
carries the store as it stands at the throw. -/
def processEntry (si : StationMap) (now : ℕ) (store : Store)
    (entry : String × StationData) :
    Except (String × Store) (Store × Option UpdatedArea) :=
  let stationId := entry.1
  let stationData := entry.2
  match List.lookup stationId si with
  | none => .ok (store, none)
  | some station =>
    match station.info.getLast? with
    | none => .ok (store, none)
    | some latestInfo =>
      let areaCode := latestInfo.code
      match CONFIG_targetAreas.find? (fun a => a.code == areaCode) with
      | none => .ok (store, none)
      | some targetArea =>
        let pga := stationData.pga.getD 0
        let intensityInt := stationData.I
        match List.lookup areaCode store with
        | none => .error ("TypeError: Cannot read properties of undefined", store)
        | some cur =>
          let changed := cur.pga ≠ pga ∨ cur.intensity ≠ intensityInt
          if changed ∨ cur.lastUpdate = none then
            let newRec : AreaStatusRec :=
              { name := targetArea.name, pga := pga, intensity := intensityInt,
                intensityText := jsvalOfNum stationData.i, lastUpdate := some now }
            let store' := storeSet store areaCode newRec
            match stationData.i with
            | none => .error ("TypeError: intensityFloat.toFixed is not a function", store')
            | some iv =>
              .ok (store', some
                { code := areaCode, name := targetArea.name, pga := pga,
                  intensityFloat := jsToFixed2 iv, intensity := intensityInt,
                  intensityText := JSVal.num iv, stationId := stationId,
                  lat := latestInfo.lat, lon := latestInfo.lon })
          else .ok (store, none)

/-- The whole `for … of Object.entries(data.station)` loop: thread the store
through the entries in order, collecting the pushed `updatedAreas`. -/
def processEntries (si : StationMap) (now : ℕ) :
    Store → List (String × StationData) →
    Except (String × Store) (Store × List UpdatedArea)
  | store, [] => .ok (store, [])
  | store, e :: rest =>
    match processEntry si now store e with
    | .error err => .error err
    | .ok (store', upd) =>
      match processEntries si now store' rest with
      | .error err => .error err
      | .ok (store'', upds) => .ok (store'', upd.toList ++ upds)

/-- `processTargetAreaData`. Returns `null` (embedded `none`) when the
payload or its `station` collection is absent, or when `getStationInfo`
yields null; otherwise runs the entry loop. The cache globals read and
written by the inner `getStationInfo` call are threaded explicitly;
`stationFetch` abstracts that call's network interaction as in
`getStationInfo`. -/
def processTargetAreaData (data : Option RtsData) (cache : CacheState)
    (now : ℕ) (stationFetch : Option StationMap) (store : Store) :
    CacheState × Except (String × Store) (Store × Option ProcResult) :=
  match data with
  | none => (cache, .ok (store, none))
  | some d =>
    match d.station with
    | none => (cache, .ok (store, none))
    | some entries =>
      let fetched := getStationInfo cache now stationFetch
      match fetched.1 with
      | none => (fetched.2, .ok (store, none))
      | some si =>
        let t := match d.time with
          | some t => if t == 0 then now else t
          | none => now
        match processEntries si now store entries with
        | .error err => (fetched.2, .error err)
        | .ok (store', upds) =>
          (fetched.2, .ok (store', some { time := t, updatedAreas := upds }))

/-- The observable effects of one `fetchRealtimeData` tick that the claims
speak about: a terminal display refresh and a WebSocket broadcast of the
full `areaStatus` snapshot. -/
inductive Effect where
  | display
  | broadcast (snapshot : Store)
deriving DecidableEq

/-- The mutable globals driving the poll loop. -/
structure LoopState where
  lastFetchTime : ℕ
  requestCounter : ℕ
  store : Store
  cache : CacheState
deriving DecidableEq

/-- Inputs to one poll tick: the wall clock and the outcomes of the two
possible network interactions. `rts = some d` means the RTS fetch returned
an OK response whose body parsed to `d`; `rts = none` means the fetch
failed, timed out, or was non-OK. -/
structure TickInput where
  now : ℕ
  rts : Option RtsData
  stationFetch : Option StationMap
deriving DecidableEq

/-- `fetchRealtimeData`: rate-limit against `CONFIG.interval`, bump
`requestCounter`, and on an OK RTS response reconcile, display, and
broadcast the full snapshot; afterwards (still inside the `try`) refresh the
display again when `requestCounter % 60 === 0`. A throw from the reconciler
is caught by the surrounding `try/catch`, which also skips the heartbeat
check for that tick. A failed fetch skips reconciliation and broadcast but
still reaches the heartbeat check. -/
def fetchRealtimeData (st : LoopState) (inp : TickInput) : LoopState × List Effect :=
  if inp.now - st.lastFetchTime < CONFIG_interval then (st, [])
  else
    let counter := st.requestCounter + 1
    let heartbeat : List Effect := if counter % 60 == 0 then [Effect.display] else []
    match inp.rts with
    | none =>
      ({ st with lastFetchTime := inp.now, requestCounter := counter }, heartbeat)
    | some rtsData =>
      let processed := processTargetAreaData (some rtsData) st.cache inp.now inp.stationFetch st.store
      match processed.2 with
      | .error err =>
        ({ st with lastFetchTime := inp.now, requestCounter := counter,
                   cache := processed.1, store := err.2 }, [])
      | .ok res =>
        ({ st with lastFetchTime := inp.now, requestCounter := counter,
                   cache := processed.1, store := res.1 },
         [Effect.display, Effect.broadcast res.1] ++ heartbeat)

/-- One reconciliation cycle viewed only through its effect on the store,
keeping the partial mutations of a thrown cycle. -/
def cycleStore (s : Store) (inp : Option RtsData × CacheState × ℕ × Option StationMap) : Store :=
  match (processTargetAreaData inp.1 inp.2.1 inp.2.2.1 inp.2.2.2 s).2 with
  | .ok (s', _) => s'
  | .error (_, s') => s'

/-- Any number of reconciliation cycles on any inputs. -/
def runCycles (s : Store) (inps : List (Option RtsData × CacheState × ℕ × Option StationMap)) : Store :=
  inps.foldl cycleStore s

/-- The keys of the store. -/
def storeKeys (s : Store) : List ℤ := s.map Prod.fst

/-- The configured monitored area codes. -/
def targetCodes : List ℤ := CONFIG_targetAreas.map TargetArea.code

/-- The current info entry and monitored area a payload entry resolves to,
when all three lookups succeed: station present in the metadata, non-empty
info history, current area code monitored. -/
def resolvedInfo (si : StationMap) (entry : String × StationData) :
    Option (StationInfoEntry × TargetArea) :=
  match List.lookup entry.1 si with
  | none => none
  | some station =>
    match station.info.getLast? with
    | none => none
    | some latestInfo =>
      match CONFIG_targetAreas.find? (fun a => a.code == latestInfo.code) with
      | none => none
      | some ta => some (latestInfo, ta)

/-- The monitored area code a payload entry resolves to, if any. -/
def resolvedArea (si : StationMap) (entry : String × StationData) : Option ℤ :=
  (resolvedInfo si entry).map fun p => p.1.code

/-- The store a reconciliation result leaves behind, whether the run
completed or threw. -/
def exceptStore {α : Type} : Except (String × Store) (Store × α) → Store
  | .ok (s, _) => s
  | .error (_, s) => s

/-- Fixture for the idempotence counterexample: two stations whose current
area assignment is the same monitored area, 106. -/
def siCex : StationMap := [("S1", ⟨[⟨106, 25, 121⟩]⟩), ("S2", ⟨[⟨106, 24, 120⟩]⟩)]

/-- Fixture payload: the two stations of `siCex` report different readings. -/
def dCex : RtsData :=
  ⟨some 5, some [("S1", ⟨some 1, some 1, some 1⟩), ("S2", ⟨some 2, some 2, some 2⟩)]⟩

/-- The store `dCex` leaves behind after one reconciliation from `initStore`. -/
def storeAfterRun1 : Store :=
  exceptStore (processTargetAreaData (some dCex) ⟨some siCex, 9⟩ 9 none initStore).2

/-- The changed-list a second identical reconciliation of `dCex` reports. -/
def secondRunUpdates : Option (List UpdatedArea) :=
  match (processTargetAreaData (some dCex) ⟨some siCex, 99⟩ 99 none storeAfterRun1).2 with
  | .ok (_, some r) => some r.updatedAreas
  | _ => none

/-- Witness fixture: a station whose current area assignment is 106. -/
def siW : StationMap := [("S1", ⟨[⟨106, 25, 121⟩]⟩)]

/-- Witness fixture: a fully-populated reading. -/
def sdW : StationData := ⟨some 1, some 1, some 1⟩

/-- The store record the reconciler writes for `sdW` at time 9. -/
def recW : AreaStatusRec := ⟨"臺北市大安區", 1, some 1, JSVal.num 1, some 9⟩

/-- The changed-list element the reconciler emits for `sdW` at time 9. -/
def updW : UpdatedArea :=
  ⟨106, "臺北市大安區", 1, jsToFixed2 1, some 1, JSVal.num 1, "S1", 25, 121⟩

/-- The store left behind after reconciling `sdW` from `initStore`. -/
def storeW : Store := storeSet initStore 106 recW

/-! ## Helper lemmas about the store -/

theorem lookup_map_replace (s : Store) (c : ℤ) (r : AreaStatusRec) :
    List.lookup c (s.map fun p => if p.1 == c then (c, r) else p) =
      if (List.lookup c s).isSome then some r else none := by
  induction s with
  | nil => simp
  | cons hd tl ih =>
    obtain ⟨k, v⟩ := hd
    simp only [List.map_cons]
    by_cases h : k = c
    · subst h
      rw [if_pos (by simp : (k == k) = true)]
      simp only [List.lookup_cons, beq_self_eq_true, Option.isSome_some, if_true]
    · rw [if_neg (by simp [h] : ¬ (k == c) = true)]
      have hb' : (c == k) = false := by simp [Ne.symm h]
      simp only [List.lookup_cons, hb']
      exact ih

theorem lookup_map_replace_other (s : Store) (c c' : ℤ) (r : AreaStatusRec) (h : c' ≠ c) :
    List.lookup c' (s.map fun p => if p.1 == c then (c, r) else p) = List.lookup c' s := by
  induction s with
  | nil => simp
  | cons hd tl ih =>
    obtain ⟨k, v⟩ := hd
    simp only [List.map_cons]
    by_cases hk : k = c
    · subst hk
      rw [if_pos (by simp : (k == k) = true)]
      have h1 : (c' == k) = false := by simp [h]
      simp only [List.lookup_cons, h1]
      exact ih
    · rw [if_neg (by simp [hk] : ¬ (k == c) = true)]
      simp only [List.lookup_cons]
      cases hck : (c' == k) with
      | false => simp only [hck]; exact ih
      | true => simp only [hck]

theorem lookup_append_singleton_self (s : Store) (c : ℤ) (r : AreaStatusRec) :
    List.lookup c s = none → List.lookup c (s ++ [(c, r)]) = some r := by
  induction s with
  | nil => intro _; simp [List.lookup_cons]
  | cons hd tl ih =>
    obtain ⟨k, v⟩ := hd
    intro hn
    rw [List.lookup_cons] at hn
    rw [List.cons_append, List.lookup_cons]
    cases hck : (c == k) with
    | false => rw [hck] at hn; simp only [hck]; exact ih hn
    | true => rw [hck] at hn; cases hn

theorem lookup_append_singleton_other (s : Store) (c c' : ℤ) (r : AreaStatusRec) (h : c' ≠ c) :
    List.lookup c' (s ++ [(c, r)]) = List.lookup c' s := by
  induction s with
  | nil =>
    have hb : (c' == c) = false := by simp [h]
    simp only [List.nil_append, List.lookup_cons, hb, List.lookup_nil]
  | cons hd tl ih =>
    obtain ⟨k, v⟩ := hd
    rw [List.cons_append, List.lookup_cons, List.lookup_cons]
    cases hck : (c' == k) with
    | false => simp only []; exact ih
    | true => rfl

theorem lookup_storeSet_self (s : Store) (c : ℤ) (r : AreaStatusRec) :
    List.lookup c (storeSet s c r) = some r := by
  unfold storeSet
  by_cases h : (List.lookup c s).isSome
  · rw [if_pos h, lookup_map_replace, if_pos h]
  · rw [if_neg h]
    exact lookup_append_singleton_self s c r (Option.not_isSome_iff_eq_none.mp h)

theorem lookup_storeSet_other (s : Store) (c c' : ℤ) (r : AreaStatusRec) (h : c' ≠ c) :
    List.lookup c' (storeSet s c r) = List.lookup c' s := by
  unfold storeSet
  by_cases hs : (List.lookup c s).isSome
  · rw [if_pos hs, lookup_map_replace_other _ _ _ _ h]
  · rw [if_neg hs, lookup_append_singleton_other _ _ _ _ h]

theorem storeKeys_storeSet_of_mem (s : Store) (c : ℤ) (r : AreaStatusRec)
    (h : (List.lookup c s).isSome) : storeKeys (storeSet s c r) = storeKeys s := by
  unfold storeSet
  rw [if_pos h]
  unfold storeKeys
  rw [List.map_map]
  apply List.map_congr_left
  intro p _
  by_cases hk : p.1 = c
  · simp [hk]
  · simp [hk]

theorem lookup_isSome_of_mem_keys (s : Store) (c : ℤ) (h : c ∈ storeKeys s) :
    (List.lookup c s).isSome := by
  induction s with
  | nil => simp [storeKeys] at h
  | cons hd tl ih =>
    obtain ⟨k, v⟩ := hd
    rw [List.lookup_cons]
    by_cases hck : c = k
    · subst hck; simp
    · have hb : (c == k) = false := by simp [hck]
      rw [hb]
      apply ih
      simp [storeKeys] at h ⊢
      rcases h with h | h
      · exact absurd h hck
      · exact h

/-! ## Characterization of `processEntry` through `resolvedInfo` -/

theorem processEntry_char (si : StationMap) (now : ℕ) (store : Store)
    (sid : String) (sd : StationData) :
    processEntry si now store (sid, sd) =
      match resolvedInfo si (sid, sd) with
      | none => .ok (store, none)
      | some (li, ta) =>
        match List.lookup li.code store with
        | none => .error ("TypeError: Cannot read properties of undefined", store)
        | some cur =>
          if (cur.pga ≠ sd.pga.getD 0 ∨ cur.intensity ≠ sd.I) ∨ cur.lastUpdate = none then
            match sd.i with
            | none =>
              .error ("TypeError: intensityFloat.toFixed is not a function",
                storeSet store li.code
                  { name := ta.name, pga := sd.pga.getD 0, intensity := sd.I,
                    intensityText := jsvalOfNum sd.i, lastUpdate := some now })
            | some iv =>
              .ok (storeSet store li.code
                  { name := ta.name, pga := sd.pga.getD 0, intensity := sd.I,
                    intensityText := jsvalOfNum sd.i, lastUpdate := some now }, some
                { code := li.code, name := ta.name, pga := sd.pga.getD 0,
                  intensityFloat := jsToFixed2 iv, intensity := sd.I,
                  intensityText := JSVal.num iv, stationId := sid,
                  lat := li.lat, lon := li.lon })
          else .ok (store, none) := by
  unfold processEntry resolvedInfo
  rcases h1 : List.lookup sid si with _ | station <;> simp only [h1]
  rcases h2 : station.info.getLast? with _ | li <;> simp only [h2]
  rcases h3 : CONFIG_targetAreas.find? (fun a => a.code == li.code) with _ | ta <;>
    simp only [h3]

theorem resolvedInfo_spec (si : StationMap) (e : String × StationData)
    (li : StationInfoEntry) (ta : TargetArea) (h : resolvedInfo si e = some (li, ta)) :
    ta ∈ CONFIG_targetAreas ∧ ta.code = li.code := by
  unfold resolvedInfo at h
  rcases h1 : List.lookup e.1 si with _ | station
  · simp only [h1] at h
    exact Option.noConfusion h
  · simp only [h1] at h
    rcases h2 : station.info.getLast? with _ | li2
    · simp only [h2] at h
      exact Option.noConfusion h
    · simp only [h2] at h
      rcases h3 : CONFIG_targetAreas.find? (fun a => a.code == li2.code) with _ | ta2
      · simp only [h3] at h
        exact Option.noConfusion h
      · simp only [h3] at h
        obtain ⟨h4, h5⟩ : li2 = li ∧ ta2 = ta := by simpa using h
        subst h4
        subst h5
        refine ⟨List.mem_of_find?_eq_some h3, ?_⟩
        have hp := List.find?_some h3
        simpa using hp

theorem resolvedArea_eq_none (si : StationMap) (e : String × StationData)
    (h : resolvedArea si e = none) : resolvedInfo si e = none := by
  unfold resolvedArea at h
  rcases hri : resolvedInfo si e with _ | p
  · rfl
  · rw [hri] at h; cases h

theorem resolvedArea_eq_some (si : StationMap) (e : String × StationData) (c : ℤ)
    (h : resolvedArea si e = some c) :
    ∃ li ta, resolvedInfo si e = some (li, ta) ∧ li.code = c := by
  unfold resolvedArea at h
  rcases hri : resolvedInfo si e with _ | ⟨li, ta⟩ <;> rw [hri] at h
  · cases h
  · exact ⟨li, ta, rfl, by simpa using h⟩

theorem processEntry_resolved_none (si : StationMap) (now : ℕ) (store : Store)
    (sid : String) (sd : StationData) (h : resolvedInfo si (sid, sd) = none) :
    processEntry si now store (sid, sd) = .ok (store, none) := by
  rw [processEntry_char, h]

theorem processEntry_frame (si : StationMap) (now : ℕ) (store s' : Store)
    (sid : String) (sd : StationData) (u : Option UpdatedArea) (c : ℤ)
    (hok : processEntry si now store (sid, sd) = .ok (s', u))
    (hc : resolvedArea si (sid, sd) ≠ some c) :
    List.lookup c s' = List.lookup c store := by
  rw [processEntry_char] at hok
  rcases hri : resolvedInfo si (sid, sd) with _ | ⟨li, ta⟩
  · simp only [hri, Except.ok.injEq, Prod.mk.injEq] at hok
    rw [← hok.1]
  · simp only [hri] at hok
    have hne : c ≠ li.code := by
      intro hcc
      apply hc
      rw [resolvedArea, hri]
      simp [hcc]
    rcases hcur : List.lookup li.code store with _ | cur
    · simp only [hcur] at hok
      exact Except.noConfusion hok
    · simp only [hcur] at hok
      by_cases hch : (cur.pga ≠ sd.pga.getD 0 ∨ cur.intensity ≠ sd.I) ∨ cur.lastUpdate = none
      · rw [if_pos hch] at hok
        rcases hi : sd.i with _ | iv
        · simp only [hi] at hok
          exact Except.noConfusion hok
        · simp only [hi, Except.ok.injEq, Prod.mk.injEq] at hok
          rw [← hok.1, lookup_storeSet_other _ _ _ _ hne]
      · rw [if_neg hch] at hok
        simp only [Except.ok.injEq, Prod.mk.injEq] at hok
        rw [← hok.1]

theorem processEntry_rerun (si : StationMap) (now1 now2 : ℕ) (store s' s2 : Store)
    (sid : String) (sd : StationData) (u : Option UpdatedArea) (c : ℤ)
    (hok : processEntry si now1 store (sid, sd) = .ok (s', u))
    (hc : resolvedArea si (sid, sd) = some c)
    (h2 : List.lookup c s2 = List.lookup c s') :
    processEntry si now2 s2 (sid, sd) = .ok (s2, none) := by
  obtain ⟨li, ta, hri, hcode⟩ := resolvedArea_eq_some si (sid, sd) c hc
  subst hcode
  rw [processEntry_char] at hok ⊢
  simp only [hri] at hok ⊢
  rcases hcur : List.lookup li.code store with _ | cur
  · simp only [hcur] at hok
    exact Except.noConfusion hok
  · simp only [hcur] at hok
    by_cases hch : (cur.pga ≠ sd.pga.getD 0 ∨ cur.intensity ≠ sd.I) ∨ cur.lastUpdate = none
    · rw [if_pos hch] at hok
      rcases hi : sd.i with _ | iv
      · simp only [hi] at hok
        exact Except.noConfusion hok
      · simp only [hi, Except.ok.injEq, Prod.mk.injEq] at hok
        have hlook : List.lookup li.code s2 = some
            { name := ta.name, pga := sd.pga.getD 0, intensity := sd.I,
              intensityText := jsvalOfNum (some iv), lastUpdate := some now1 } := by
          rw [h2, ← hok.1, lookup_storeSet_self]
        simp only [hlook]
        rw [if_neg]
        simp [jsvalOfNum]
    · rw [if_neg hch] at hok
      simp only [Except.ok.injEq, Prod.mk.injEq] at hok
      rw [h2, ← hok.1]
      simp only [hcur]
      rw [if_neg hch]

theorem processEntry_keys (si : StationMap) (now : ℕ) (store : Store)
    (e : String × StationData) (h : storeKeys store = targetCodes) :
    storeKeys (exceptStore (processEntry si now store e)) = targetCodes := by
  obtain ⟨sid, sd⟩ := e
  rw [processEntry_char]
  rcases hri : resolvedInfo si (sid, sd) with _ | ⟨li, ta⟩
  · simpa only [hri, exceptStore] using h
  · have hmem : li.code ∈ targetCodes := by
      obtain ⟨hta, hcode⟩ := resolvedInfo_spec si (sid, sd) li ta hri
      rw [← hcode]
      unfold targetCodes
      exact List.mem_map_of_mem _ hta
    have hsome : (List.lookup li.code store).isSome :=
      lookup_isSome_of_mem_keys store li.code (by rw [h]; exact hmem)
    obtain ⟨cur, hcur⟩ := Option.isSome_iff_exists.mp hsome
    simp only [hri, hcur]
    by_cases hch : (cur.pga ≠ sd.pga.getD 0 ∨ cur.intensity ≠ sd.I) ∨ cur.lastUpdate = none
    · rw [if_pos hch]
      rcases hi : sd.i with _ | iv <;> simp only [hi, exceptStore]
      · rw [storeKeys_storeSet_of_mem _ _ _ hsome]
        exact h
      · rw [storeKeys_storeSet_of_mem _ _ _ hsome]
        exact h
    · rw [if_neg hch]
      simpa only [exceptStore] using h

theorem processEntry_isOk (si : StationMap) (now : ℕ) (store : Store)
    (sid : String) (sd : StationData) (h : storeKeys store = targetCodes)
    (hi : sd.i.isSome) :
    ∃ s' u, processEntry si now store (sid, sd) = .ok (s', u) := by
  rw [processEntry_char]
  rcases hri : resolvedInfo si (sid, sd) with _ | ⟨li, ta⟩
  · simp only [hri]
    exact ⟨store, none, rfl⟩
  · simp only [hri]
    have hmem : li.code ∈ targetCodes := by
      obtain ⟨hta, hcode⟩ := resolvedInfo_spec si (sid, sd) li ta hri
      rw [← hcode]
      unfold targetCodes
      exact List.mem_map_of_mem _ hta
    have hsome : (List.lookup li.code store).isSome :=
      lookup_isSome_of_mem_keys store li.code (by rw [h]; exact hmem)
    obtain ⟨cur, hcur⟩ := Option.isSome_iff_exists.mp hsome
    simp only [hcur]
    by_cases hch : (cur.pga ≠ sd.pga.getD 0 ∨ cur.intensity ≠ sd.I) ∨ cur.lastUpdate = none
    · rw [if_pos hch]
      obtain ⟨iv, hiv⟩ := Option.isSome_iff_exists.mp hi
      simp only [hiv]
      exact ⟨_, _, rfl⟩
    · rw [if_neg hch]
      exact ⟨store, none, rfl⟩

theorem processEntries_keys (si : StationMap) (now : ℕ)
    (entries : List (String × StationData)) :
    ∀ store : Store, storeKeys store = targetCodes →
      storeKeys (exceptStore (processEntries si now store entries)) = targetCodes := by
  induction entries with
  | nil =>
    intro store h
    simpa only [processEntries, exceptStore] using h
  | cons e rest ih =>
    intro store h
    have hkey := processEntry_keys si now store e h
    rcases hpe : processEntry si now store e with ⟨m, serr⟩ | ⟨store1, upd⟩
    · rw [hpe] at hkey
      simp only [processEntries, hpe]
      exact hkey
    · rw [hpe] at hkey
      have h1 : storeKeys store1 = targetCodes := by simpa only [exceptStore] using hkey
      have hrest := ih store1 h1
      simp only [processEntries, hpe]
      rcases hre : processEntries si now store1 rest with ⟨m2, serr2⟩ | ⟨store2, upds⟩
      · rw [hre] at hrest
        simp only [hre]
        exact hrest
      · rw [hre] at hrest
        simp only [hre]
        simpa only [exceptStore] using hrest

theorem processEntries_isOk (si : StationMap) (now : ℕ)
    (entries : List (String × StationData)) :
    ∀ store : Store, storeKeys store = targetCodes →
      (∀ e ∈ entries, (e.2).i.isSome) →
      ∃ s' us, processEntries si now store entries = .ok (s', us) := by
  induction entries with
  | nil =>
    intro store _ _
    exact ⟨store, [], rfl⟩
  | cons e rest ih =>
    intro store h hi
    obtain ⟨sid, sd⟩ := e
    obtain ⟨s1, u, hpe⟩ :=
      processEntry_isOk si now store sid sd h (hi (sid, sd) (List.mem_cons_self _ _))
    have h1 : storeKeys s1 = targetCodes := by
      have hk := processEntry_keys si now store (sid, sd) h
      rw [hpe] at hk
      simpa only [exceptStore] using hk
    obtain ⟨s2, us, hre⟩ := ih s1 h1 (fun e2 he2 => hi e2 (List.mem_cons_of_mem _ he2))
    refine ⟨s2, u.toList ++ us, ?_⟩
    simp only [processEntries, hpe, hre]

theorem processEntries_frame (si : StationMap) (now : ℕ)
    (entries : List (String × StationData)) :
    ∀ store s' us, processEntries si now store entries = .ok (s', us) →
      ∀ c, (∀ e ∈ entries, resolvedArea si e ≠ some c) →
      List.lookup c s' = List.lookup c store := by
  induction entries with
  | nil =>
    intro store s' us hok c _
    simp only [processEntries, Except.ok.injEq, Prod.mk.injEq] at hok
    rw [← hok.1]
  | cons e rest ih =>
    intro store s' us hok c hc
    obtain ⟨sid, sd⟩ := e
    simp only [processEntries] at hok
    rcases hpe : processEntry si now store (sid, sd) with ⟨m, serr⟩ | ⟨s1, u⟩
    · simp only [hpe] at hok
      exact Except.noConfusion hok
    · simp only [hpe] at hok
      rcases hre : processEntries si now s1 rest with ⟨m2, serr2⟩ | ⟨s2, us2⟩
      · simp only [hre] at hok
        exact Except.noConfusion hok
      · simp only [hre, Except.ok.injEq, Prod.mk.injEq] at hok
        rw [← hok.1]
        have hstep : List.lookup c s1 = List.lookup c store :=
          processEntry_frame si now store s1 sid sd u c hpe
            (hc (sid, sd) (List.mem_cons_self _ _))
        rw [ih s1 s2 us2 hre c (fun e2 he2 => hc e2 (List.mem_cons_of_mem _ he2))]
        exact hstep

theorem processEntries_rerun (si : StationMap) (now1 now2 : ℕ)
    (entries : List (String × StationData)) :
    ∀ store s' us s2,
      List.Pairwise
        (fun e1 e2 => ∀ c, resolvedArea si e1 = some c → resolvedArea si e2 ≠ some c)
        entries →
      processEntries si now1 store entries = .ok (s', us) →
      (∀ c e, e ∈ entries → resolvedArea si e = some c →
        List.lookup c s2 = List.lookup c s') →
      processEntries si now2 s2 entries = .ok (s2, []) := by
  induction entries with
  | nil =>
    intro store s' us s2 _ _ _
    rfl
  | cons e rest ih =>
    intro store s' us s2 hpair hok hcond
    obtain ⟨sid, sd⟩ := e
    rw [List.pairwise_cons] at hpair
    obtain ⟨hhead, hrestpair⟩ := hpair
    simp only [processEntries] at hok
    rcases hpe : processEntry si now1 store (sid, sd) with ⟨m, serr⟩ | ⟨s1, u⟩
    · simp only [hpe] at hok
      exact Except.noConfusion hok
    · simp only [hpe] at hok
      rcases hre : processEntries si now1 s1 rest with ⟨m2, serr2⟩ | ⟨sr, usr⟩
      · simp only [hre] at hok
        exact Except.noConfusion hok
      · simp only [hre, Except.ok.injEq, Prod.mk.injEq] at hok
        have hs' : sr = s' := hok.1
        have hhead2 : processEntry si now2 s2 (sid, sd) = .ok (s2, none) := by
          rcases hra : resolvedArea si (sid, sd) with _ | c
          · exact processEntry_resolved_none si now2 s2 sid sd (resolvedArea_eq_none _ _ hra)
          · have hc1 : List.lookup c s2 = List.lookup c s' :=
              hcond c (sid, sd) (List.mem_cons_self _ _) hra
            have hc2 : List.lookup c s' = List.lookup c s1 := by
              rw [← hs']
              exact processEntries_frame si now1 rest s1 sr usr hre c
                (fun e2 he2 => hhead e2 he2 c hra)
            exact processEntry_rerun si now1 now2 store s1 s2 sid sd u c hpe hra
              (hc1.trans hc2)
        have hrest2 : processEntries si now2 s2 rest = .ok (s2, []) :=
          ih s1 sr usr s2 hrestpair hre
            (fun c e2 he2 hre2 => by
              rw [hs']
              exact hcond c e2 (List.mem_cons_of_mem _ he2) hre2)
        simp [processEntries, hhead2, hrest2]

theorem getStationInfo_fresh (si : StationMap) (now : ℕ) (f : Option StationMap) :
    getStationInfo ⟨some si, now⟩ now f = (some si, ⟨some si, now⟩) := by
  unfold getStationInfo
  rw [if_pos]
  constructor
  · simp
  · simp [STATION_INFO_INTERVAL]

theorem processTargetAreaData_eq (d : RtsData) (entries : List (String × StationData))
    (si : StationMap) (now : ℕ) (f : Option StationMap) (s : Store)
    (hst : d.station = some entries) :
    processTargetAreaData (some d) ⟨some si, now⟩ now f s =
      (⟨some si, now⟩,
        match processEntries si now s entries with
        | .error err => .error err
        | .ok (s', upds) =>
          .ok (s', some
            { time := match d.time with
                | some t => if t == 0 then now else t
                | none => now,
              updatedAreas := upds })) := by
  unfold processTargetAreaData
  simp only [hst, getStationInfo_fresh]
  rcases hpe : processEntries si now s entries with ⟨m, serr⟩ | ⟨s2, upds⟩ <;>
    simp only [hpe]

theorem processTargetAreaData_keys (data : Option RtsData) (cache : CacheState)
    (now : ℕ) (f : Option StationMap) (s : Store) (h : storeKeys s = targetCodes) :
    storeKeys (exceptStore (processTargetAreaData data cache now f s).2) = targetCodes := by
  unfold processTargetAreaData
  rcases data with _ | d
  · simpa only [exceptStore] using h
  · rcases hst : d.station with _ | entries
    · simp only [hst]
      simpa only [exceptStore] using h
    · simp only [hst]
      rcases hfetch : (getStationInfo cache now f).1 with _ | si
      · simp only [hfetch]
        simpa only [exceptStore] using h
      · simp only [hfetch]
        have hk := processEntries_keys si now entries s h
        rcases hpe : processEntries si now s entries with ⟨m, serr⟩ | ⟨s2, upds⟩
        · rw [hpe] at hk
          simp only [hpe]
          exact hk
        · rw [hpe] at hk
          simp only [hpe]
          simpa only [exceptStore] using hk

theorem cycleStore_keys (s : Store) (inp : Option RtsData × CacheState × ℕ × Option StationMap)
    (h : storeKeys s = targetCodes) : storeKeys (cycleStore s inp) = targetCodes := by
  unfold cycleStore
  have hk := processTargetAreaData_keys inp.1 inp.2.1 inp.2.2.1 inp.2.2.2 s h
  rcases hp : (processTargetAreaData inp.1 inp.2.1 inp.2.2.1 inp.2.2.2 s).2 with ⟨m, serr⟩ | ⟨s2, upds⟩
  · rw [hp] at hk
    simp only [hp]
    simpa only [exceptStore] using hk
  · rw [hp] at hk
    simp only [hp]
    simpa only [exceptStore] using hk

theorem runCycles_keys (inps : List (Option RtsData × CacheState × ℕ × Option StationMap)) :
    ∀ s : Store, storeKeys s = targetCodes → storeKeys (runCycles s inps) = targetCodes := by
  induction inps with
  | nil =>
    intro s h
    simpa only [runCycles, List.foldl_nil] using h
  | cons i rest ih =>
    intro s h
    have : runCycles s (i :: rest) = runCycles (cycleStore s i) rest := by
      simp only [runCycles, List.foldl_cons]
    rw [this]
    exact ih (cycleStore s i) (cycleStore_keys s i h)

/-! ## Claim theorems -/

/-- Claim C3: `intensityFloatToInt` exactly reproduces the fixed threshold
table — below 0 it returns 0; on [0, 4.5) it returns JavaScript
`Math.round` of the input; on [4.5, 5) it returns 5; on [5, 5.5) it returns
6; on [5.5, 6) it returns 7; on [6, 6.5) it returns 8; from 6.5 on it
returns 9 — and takes the listed values at the listed sample points. -/
theorem intensityFloatToInt_table :
    (∀ x : ℚ, x < 0 → intensityFloatToInt x = 0) ∧
    (∀ x : ℚ, 0 ≤ x → x < 4.5 → intensityFloatToInt x = jsRound x) ∧
    (∀ x : ℚ, 4.5 ≤ x → x < 5 → intensityFloatToInt x = 5) ∧
    (∀ x : ℚ, 5 ≤ x → x < 5.5 → intensityFloatToInt x = 6) ∧
    (∀ x : ℚ, 5.5 ≤ x → x < 6 → intensityFloatToInt x = 7) ∧
    (∀ x : ℚ, 6 ≤ x → x < 6.5 → intensityFloatToInt x = 8) ∧
    (∀ x : ℚ, 6.5 ≤ x → intensityFloatToInt x = 9) ∧
    intensityFloatToInt (-1) = 0 ∧ intensityFloatToInt 3.2 = 3 ∧
    intensityFloatToInt 4.49 = 4 ∧ intensityFloatToInt 4.5 = 5 ∧
    intensityFloatToInt 4.99 = 5 ∧ intensityFloatToInt 5.0 = 6 ∧
    intensityFloatToInt 5.49 = 6 ∧ intensityFloatToInt 5.5 = 7 ∧
    intensityFloatToInt 5.99 = 7 ∧ intensityFloatToInt 6.0 = 8 ∧
    intensityFloatToInt 6.49 = 8 ∧ intensityFloatToInt 6.5 = 9 := by
  refine ⟨?_, ?_, ?_, ?_, ?_, ?_, ?_, ?_, ?_, ?_, ?_, ?_, ?_, ?_, ?_, ?_, ?_, ?_, ?_⟩
  · intro x h
    simp [intensityFloatToInt, h]
  · intro x h0 h
    unfold intensityFloatToInt
    rw [if_neg (by linarith), if_pos h]
  · intro x h1 h2
    unfold intensityFloatToInt
    rw [if_neg (by linarith), if_neg (by linarith), if_pos h2]
  · intro x h1 h2
    unfold intensityFloatToInt
    rw [if_neg (by linarith), if_neg (by linarith), if_neg (by linarith), if_pos h2]
  · intro x h1 h2
    unfold intensityFloatToInt
    rw [if_neg (by linarith), if_neg (by linarith), if_neg (by linarith),
      if_neg (by linarith), if_pos h2]
  · intro x h1 h2
    unfold intensityFloatToInt
    rw [if_neg (by linarith), if_neg (by linarith), if_neg (by linarith),
      if_neg (by linarith), if_neg (by linarith), if_pos h2]
  · intro x h1
    unfold intensityFloatToInt
    rw [if_neg (by linarith), if_neg (by linarith), if_neg (by linarith),
      if_neg (by linarith), if_neg (by linarith), if_neg (by linarith)]
  · norm_num [intensityFloatToInt]
  · norm_num [intensityFloatToInt, jsRound]
  · norm_num [intensityFloatToInt, jsRound]
  · norm_num [intensityFloatToInt]
  · norm_num [intensityFloatToInt]
  · norm_num [intensityFloatToInt]
  · norm_num [intensityFloatToInt]
  · norm_num [intensityFloatToInt]
  · norm_num [intensityFloatToInt]
  · norm_num [intensityFloatToInt]
  · norm_num [intensityFloatToInt]
  · norm_num [intensityFloatToInt]

/-- Witness for C3 at concrete inputs. -/
theorem intensityFloatToInt_table_w :
    intensityFloatToInt 2 = jsRound 2 ∧ intensityFloatToInt (-2) = 0 :=
  ⟨intensityFloatToInt_table.2.1 2 (by norm_num) (by norm_num),
   intensityFloatToInt_table.1 (-2) (by norm_num)⟩

set_option maxHeartbeats 1600000 in
/-- Claim C4: `intensityFloatToInt` is monotone non-decreasing on its whole
domain. -/
theorem intensityFloatToInt_monotone (x y : ℚ) (h : x ≤ y) :
    intensityFloatToInt x ≤ intensityFloatToInt y := by
  unfold intensityFloatToInt jsRound
  split_ifs
  all_goals try rfl
  all_goals try norm_num
  all_goals try (exfalso; linarith)
  all_goals try (exact Int.floor_le_floor (by linarith))
  all_goals try (exact Int.floor_nonneg.mpr (by linarith))
  all_goals
    (have hx5 : ⌊x + 1/2⌋ < (5 : ℤ) := Int.floor_lt.mpr (by push_cast; linarith)
     omega)

/-- Witness for C4 at a concrete pair. -/
theorem intensityFloatToInt_monotone_w :
    intensityFloatToInt 1 ≤ intensityFloatToInt 2 :=
  intensityFloatToInt_monotone 1 2 (by norm_num)

/-- Counterexample to claim C5 as stated: the fixed scale stores the
superscript glyph `5⁻`, not the ASCII string `"5-"`, and the out-of-range
sentinel is `不明`, not the string `"unknown"`. -/
theorem intensityToText_scale_cex :
    intensityToText 5 ≠ "5-" ∧ intensityToText 10 ≠ "unknown" := by
  constructor
  · intro h
    rw [show intensityToText 5 = "5⁻" from rfl] at h
    exact absurd h (by decide)
  · intro h
    rw [show intensityToText 10 = "不明" from rfl] at h
    exact absurd h (by decide)

/-- Claim C5 (amended): for `0 ≤ k ≤ 9`, `intensityToText k` is the k-th
entry of the fixed scale `["0","1","2","3","4","5⁻","5⁺","6⁻","6⁺","7"]`
(with superscript minus and plus); out of range it returns the sentinel
`不明` ("unknown"). -/
theorem intensityToText_table :
    (∀ k : ℤ, k < 0 → intensityToText k = "不明") ∧
    (∀ k : ℤ, 9 < k → intensityToText k = "不明") ∧
    intensityToText 0 = "0" ∧ intensityToText 1 = "1" ∧ intensityToText 2 = "2" ∧
    intensityToText 3 = "3" ∧ intensityToText 4 = "4" ∧ intensityToText 5 = "5⁻" ∧
    intensityToText 6 = "5⁺" ∧ intensityToText 7 = "6⁻" ∧ intensityToText 8 = "6⁺" ∧
    intensityToText 9 = "7" := by
  refine ⟨?_, ?_, rfl, rfl, rfl, rfl, rfl, rfl, rfl, rfl, rfl, rfl⟩
  · intro k hk
    have hc : ¬(0 ≤ k ∧ k < (INTENSITY_LIST.length : ℤ)) := by
      rintro ⟨hge, _⟩
      omega
    unfold intensityToText
    rw [if_neg hc]
  · intro k hk
    have hc : ¬(0 ≤ k ∧ k < (INTENSITY_LIST.length : ℤ)) := by
      rintro ⟨_, hlt⟩
      have hlen : (INTENSITY_LIST.length : ℤ) = 10 := by simp [INTENSITY_LIST]
      omega
    unfold intensityToText
    rw [if_neg hc]

/-- Witness for C5 out-of-range branches. -/
theorem intensityToText_table_w :
    intensityToText (-3) = "不明" ∧ intensityToText 10 = "不明" :=
  ⟨intensityToText_table.1 (-3) (by norm_num), intensityToText_table.2.1 10 (by norm_num)⟩

/-- Counterexample to claim C1 as stated: with a cached station directory
present and the TTL expired, a failed fetch makes `getStationInfo` return
null, not the stale cached value. -/
theorem getStationInfo_stale_cache_cex :
    (getStationInfo ⟨some [("S1", ⟨[⟨106, 25, 121⟩]⟩)], 0⟩ STATION_INFO_INTERVAL none).1
      = none ∧
    (⟨some [("S1", ⟨[⟨106, 25, 121⟩]⟩)], 0⟩ : CacheState).stationInfo ≠ none := by
  constructor
  · rfl
  · intro h
    exact Option.noConfusion h

/-- Claim C1 (amended): whenever the cache is cold or the TTL has expired
and the fetch fails or returns a non-OK response, `getStationInfo` returns
null — even when a stale cached directory exists — and leaves the cache
globals (including the stale value) unchanged; it never throws. -/
theorem getStationInfo_failure_returns_null (st : CacheState) (now : ℕ)
    (h : ¬(st.stationInfo.isSome ∧ now - st.lastStationInfoFetch < STATION_INFO_INTERVAL)) :
    getStationInfo st now none = (none, st) := by
  unfold getStationInfo
  rw [if_neg h]

/-- Witness for C1 (amended) on a cold cache. -/
theorem getStationInfo_failure_returns_null_w :
    getStationInfo ⟨none, 0⟩ 0 none = (none, ⟨none, 0⟩) :=
  getStationInfo_failure_returns_null ⟨none, 0⟩ 0 (by decide)

/-- Claim C7: an entry whose station is absent from the metadata, or whose
info history is empty, or whose current (last) area code is not monitored,
is skipped: the loop body returns the store unchanged and contributes
nothing to the changed-list. -/
theorem processEntry_skip_frame (si : StationMap) (now : ℕ) (s : Store)
    (sid : String) (sd : StationData)
    (h : List.lookup sid si = none
       ∨ (∃ station, List.lookup sid si = some station ∧ station.info = [])
       ∨ (∃ station li, List.lookup sid si = some station ∧
            station.info.getLast? = some li ∧
            li.code ∉ CONFIG_targetAreas.map TargetArea.code)) :
    processEntry si now s (sid, sd) = .ok (s, none) := by
  apply processEntry_resolved_none
  unfold resolvedInfo
  rcases h with h1 | ⟨station, h1, h2⟩ | ⟨station, li, h1, h2, h3⟩
  · simp only [h1]
  · simp only [h1, h2, List.getLast?_nil]
  · have hfind : CONFIG_targetAreas.find? (fun a => a.code == li.code) = none := by
      rw [List.find?_eq_none]
      intro a ha
      simp only [beq_iff_eq]
      intro hcode
      exact h3 (hcode ▸ List.mem_map_of_mem TargetArea.code ha)
    simp only [h1, h2, hfind]

/-- Witness for C7: a station id absent from an empty metadata map. -/
theorem processEntry_skip_frame_w :
    processEntry [] 0 initStore ("S1", ⟨some 1, some 1, some 1⟩) = .ok (initStore, none) :=
  processEntry_skip_frame [] 0 initStore "S1" ⟨some 1, some 1, some 1⟩ (Or.inl rfl)

/-- Claim C8: the store starts with exactly one entry per configured
monitored area (the four target codes, no duplicates), and after any number
of reconciliation cycles on any inputs its key set is still exactly the
configured code list — keys are never added or removed. -/
theorem areaStore_keys_invariant :
    targetCodes.Nodup ∧ storeKeys initStore = targetCodes ∧
    ∀ inps : List (Option RtsData × CacheState × ℕ × Option StationMap),
      storeKeys (runCycles initStore inps) = targetCodes := by
  refine ⟨by decide, rfl, ?_⟩
  intro inps
  exact runCycles_keys inps initStore rfl

/-- Claim C10: whenever the reconciler loop body emits a changed-list entry,
the upstream float-intensity field `stationData.i` was present, and both the
emitted entry's `intensityText` and the `intensityText` written to the store
are that raw float — a number, never one of the scale strings — so the
local `IntensityCalculator` conversions play no part on this path. -/
theorem intensityText_is_raw_upstream_float (si : StationMap) (now : ℕ)
    (store s' : Store) (sid : String) (sd : StationData) (u : UpdatedArea)
    (h : processEntry si now store (sid, sd) = .ok (s', some u)) :
    ∃ v, sd.i = some v ∧ u.intensityText = JSVal.num v ∧
      (∃ r, List.lookup u.code s' = some r ∧ r.intensityText = JSVal.num v) ∧
      ∀ str, u.intensityText ≠ JSVal.str str := by
  rw [processEntry_char] at h
  rcases hri : resolvedInfo si (sid, sd) with _ | ⟨li, ta⟩
  · simp only [hri, Except.ok.injEq, Prod.mk.injEq] at h
    exact absurd h.2 (by simp)
  · simp only [hri] at h
    rcases hcur : List.lookup li.code store with _ | cur
    · simp only [hcur] at h
      exact Except.noConfusion h
    · simp only [hcur] at h
      by_cases hch : (cur.pga ≠ sd.pga.getD 0 ∨ cur.intensity ≠ sd.I) ∨ cur.lastUpdate = none
      · rw [if_pos hch] at h
        rcases hi : sd.i with _ | iv
        · simp only [hi] at h
          exact Except.noConfusion h
        · simp only [hi, Except.ok.injEq, Prod.mk.injEq, Option.some.injEq] at h
          obtain ⟨hs, hu⟩ := h
          refine ⟨iv, rfl, ?_, ?_, ?_⟩
          · rw [← hu]
          · refine ⟨{ name := ta.name, pga := sd.pga.getD 0, intensity := sd.I,
                      intensityText := jsvalOfNum (some iv), lastUpdate := some now },
                    ?_, rfl⟩
            rw [← hu]
            show List.lookup li.code s' = _
            rw [← hs, lookup_storeSet_self]
          · intro str hstr
            rw [← hu] at hstr
            exact JSVal.noConfusion hstr
      · rw [if_neg hch] at h
        simp only [Except.ok.injEq, Prod.mk.injEq] at h
        exact absurd h.2 (by simp)

/-- Witness for C10 on a concrete update. -/
theorem intensityText_is_raw_upstream_float_w :
    ∃ v, sdW.i = some v ∧ updW.intensityText = JSVal.num v ∧
      (∃ r, List.lookup updW.code storeW = some r ∧ r.intensityText = JSVal.num v) ∧
      ∀ str, updW.intensityText ≠ JSVal.str str :=
  intensityText_is_raw_upstream_float siW 9 initStore storeW "S1" sdW updW (by rfl)

/-- Counterexample to claim C2 as stated: a monitored-area entry whose
reading is missing the `pga`, `i` and `I` fields is not skipped — the
reconciler throws a TypeError at `intensityFloat.toFixed(2)` (after having
already written the store), aborting the batch. -/
theorem processTargetAreaData_malformed_raises_cex :
    (processTargetAreaData (some ⟨some 5, some [("S1", ⟨none, none, none⟩)]⟩)
        ⟨some siW, 100⟩ 100 none initStore).2 =
      .error ("TypeError: intensityFloat.toFixed is not a function",
        storeSet initStore 106 ⟨"臺北市大安區", 0, none, JSVal.undef, some 100⟩) := rfl

/-- Claim C2 (amended): the reconciler tolerates a missing `pga` (defaulted
to 0) and a missing integer intensity `I`, and skips unknown or unmonitored
stations; but it only completes without raising when every payload entry
carries the float-intensity field `i` — an update-triggering entry without
`i` throws. Given a store with the monitored key set, if every entry has
`i`, the whole batch completes normally. -/
theorem processTargetAreaData_no_raise_of_i_present
    (d : RtsData) (entries : List (String × StationData)) (cache : CacheState)
    (now : ℕ) (f : Option StationMap) (s : Store)
    (hst : d.station = some entries)
    (hkeys : storeKeys s = targetCodes)
    (hi : ∀ e ∈ entries, (e.2).i.isSome) :
    ∃ res, (processTargetAreaData (some d) cache now f s).2 = .ok res := by
  unfold processTargetAreaData
  simp only [hst]
  rcases hfetch : (getStationInfo cache now f).1 with _ | si
  · simp only [hfetch]
    exact ⟨(s, none), rfl⟩
  · simp only [hfetch]
    obtain ⟨s2, us, hpe⟩ := processEntries_isOk si now entries s hkeys hi
    simp only [hpe]
    exact ⟨_, rfl⟩

/-- Witness for C2 (amended) on a one-entry payload with `i` present. -/
theorem processTargetAreaData_no_raise_of_i_present_w :
    ∃ res, (processTargetAreaData (some ⟨some 5, some [("S1", sdW)]⟩)
      ⟨some siW, 9⟩ 9 none initStore).2 = .ok res :=
  processTargetAreaData_no_raise_of_i_present ⟨some 5, some [("S1", sdW)]⟩
    [("S1", sdW)] ⟨some siW, 9⟩ 9 none initStore rfl rfl
    (by intro e he; simp at he; rw [he]; rfl)

/-- Counterexample to claim C6 as stated: `dCex` holds two stations that
both map to monitored area 106 with different readings. The first
reconciliation succeeds, yet the second identical one reports two changed
entries (not an empty changed-list) and bumps `lastUpdate` of area 106 from
the first run's time 9 to the second run's time 99. -/
theorem reconciler_idempotence_cex :
    secondRunUpdates.map List.length = some 2 ∧
    (List.lookup 106 (exceptStore
        (processTargetAreaData (some dCex) ⟨some siCex, 99⟩ 99 none storeAfterRun1).2)).map
      AreaStatusRec.lastUpdate = some (some 99) ∧
    (List.lookup 106 storeAfterRun1).map AreaStatusRec.lastUpdate = some (some 9) :=
  ⟨rfl, rfl, rfl⟩

/-- Claim C6 (amended): reconciler idempotence holds when no two payload
entries resolve to the same monitored area: if a first run from any store
succeeds, a second run of the identical payload and metadata on the
resulting store returns an empty changed-list and leaves the store —
including every `lastUpdate` — unchanged. -/
theorem processTargetAreaData_idempotent_distinct_areas
    (d : RtsData) (entries : List (String × StationData)) (si : StationMap)
    (now1 now2 : ℕ) (f1 f2 : Option StationMap) (s0 s1 : Store) (r1 : ProcResult)
    (hst : d.station = some entries)
    (hpair : List.Pairwise
      (fun e1 e2 => ∀ c, resolvedArea si e1 = some c → resolvedArea si e2 ≠ some c)
      entries)
    (h1 : processTargetAreaData (some d) ⟨some si, now1⟩ now1 f1 s0 =
      (⟨some si, now1⟩, .ok (s1, some r1))) :
    ∃ t, processTargetAreaData (some d) ⟨some si, now2⟩ now2 f2 s1 =
      (⟨some si, now2⟩, .ok (s1, some { time := t, updatedAreas := [] })) := by
  rw [processTargetAreaData_eq d entries si now1 f1 s0 hst] at h1
  rcases hpe : processEntries si now1 s0 entries with ⟨m, serr⟩ | ⟨s1', us⟩
  · rw [hpe] at h1
    simp at h1
  · rw [hpe] at h1
    simp only [Prod.mk.injEq, Except.ok.injEq, Option.some.injEq, true_and] at h1
    obtain ⟨hs1, _⟩ := h1
    have hrerun : processEntries si now2 s1 entries = .ok (s1, []) := by
      rw [← hs1]
      exact processEntries_rerun si now1 now2 entries s0 s1' us s1' hpair hpe
        (fun c e _ _ => rfl)
    refine ⟨(match d.time with
      | some t => if t == 0 then now2 else t
      | none => now2), ?_⟩
    rw [processTargetAreaData_eq d entries si now2 f2 s1 hst]
    simp only [hrerun]

/-- Witness for C6 (amended) on a one-entry payload. -/
theorem processTargetAreaData_idempotent_distinct_areas_w :
    ∃ t, processTargetAreaData (some ⟨some 5, some [("S1", sdW)]⟩)
        ⟨some siW, 99⟩ 99 none storeW =
      (⟨some siW, 99⟩, .ok (storeW, some { time := t, updatedAreas := [] })) :=
  processTargetAreaData_idempotent_distinct_areas ⟨some 5, some [("S1", sdW)]⟩
    [("S1", sdW)] siW 9 99 none none initStore storeW
    { time := 5, updatedAreas := [updW] } rfl (by simp) (by rfl)

/-- Counterexample to claim C9 as stated: on a non-rate-limited tick whose
counter reaches a multiple of 60 but whose RTS fetch fails, the tick only
refreshes the terminal display — no broadcast of the snapshot is pushed to
subscribers, contradicting the claimed forced broadcast refresh. -/
theorem heartbeat_no_broadcast_cex :
    (fetchRealtimeData ⟨0, 59, initStore, ⟨none, 0⟩⟩ ⟨1000, none, none⟩).1.requestCounter % 60
      = 0 ∧
    (fetchRealtimeData ⟨0, 59, initStore, ⟨none, 0⟩⟩ ⟨1000, none, none⟩).2
      = [Effect.display] :=
  ⟨rfl, rfl⟩

/-- Claim C9 (amended): every 60th non-rate-limited tick forces an extra
terminal display refresh regardless of change detection, but no extra
broadcast: on a failed fetch the tick produces only the heartbeat display,
while on a successful fetch whose reconciliation does not throw the tick
produces the ordinary display and full-snapshot broadcast followed by the
heartbeat display — the broadcast comes from the per-tick path, not from
the 60-tick heartbeat. -/
theorem heartbeat_display_only (st : LoopState) (inp : TickInput)
    (hrate : ¬ inp.now - st.lastFetchTime < CONFIG_interval)
    (h60 : (st.requestCounter + 1) % 60 = 0) :
    (inp.rts = none → (fetchRealtimeData st inp).2 = [Effect.display]) ∧
    (∀ d s2 r, inp.rts = some d →
      (processTargetAreaData (some d) st.cache inp.now inp.stationFetch st.store).2
        = .ok (s2, r) →
      (fetchRealtimeData st inp).2
        = [Effect.display, Effect.broadcast s2, Effect.display]) := by
  constructor
  · intro hrts
    unfold fetchRealtimeData
    rw [if_neg hrate]
    simp [hrts, h60]
  · intro d s2 r hrts hok
    unfold fetchRealtimeData
    rw [if_neg hrate]
    simp [hrts, hok, h60]

/-- Witness for C9 (amended): a failed fetch on a 120th tick. -/
theorem heartbeat_display_only_w :
    (fetchRealtimeData ⟨0, 119, initStore, ⟨none, 0⟩⟩ ⟨1000, none, none⟩).2
      = [Effect.display] :=
  (heartbeat_display_only ⟨0, 119, initStore, ⟨none, 0⟩⟩ ⟨1000, none, none⟩
    (by decide) (by decide)).1 rfl
